import Mathlib

/-!
Shallow embedding of `src/app.py`: a read-only Flask + mongoengine API over
five MongoDB collections (`subtopics`, `upsc_syllabus`, `micro_units`,
`micro_unit_notes`, `micro_unit_mcqs`).  Documents become Lean structures, a
`Store` holds the contents of the five collections, and each route handler
becomes a function from the store and its path parameters to its response
value.  mongoengine/bson exceptions (`DoesNotExist`,
`MultipleObjectsReturned`, `ValidationError`, `bson.errors.InvalidId`) are
modelled as `Except` errors.  The two handlers that issue several store
queries also return the list of queries they issue, so that round-trip
counting properties can be stated.

Two pieces of library semantics that the route logic depends on are modelled
explicitly:

* mongoengine `QuerySet.distinct` over a `ReferenceField` dereferences the
  distinct stored ids and returns `Document` instances, not raw `ObjectId`s
  (`DeReference.__call__` turns the plain ids of a non-dbref `ReferenceField`
  into DBRefs and bulk-fetches the referenced documents).
* mongoengine `Document.__eq__` compares primary keys only when the other
  operand is a `Document` of the same class (or a `DBRef`); comparing an
  `ObjectId` with a `Document` returns `False` in both directions, and
  `Document.__hash__` is the hash of the primary key.  Python `in` over a set
  of documents therefore succeeds for a document with an equal primary key
  and always fails for a raw `ObjectId`.
-/

deriving instance DecidableEq for Except

/-- BSON object ids, the primary-key type of every collection.  A
`bson.ObjectId` is a 12-byte value written as 24 hex characters; we model the
value as the natural number denoted by those 24 hex digits. -/
abbrev ObjectId := Nat

/-- One hex digit of a `bson.ObjectId` string. -/
def hexDigit? (c : Char) : Option Nat :=
  if '0' ≤ c ∧ c ≤ '9' then some (c.toNat - '0'.toNat)
  else if 'a' ≤ c ∧ c ≤ 'f' then some (c.toNat - 'a'.toNat + 10)
  else if 'A' ≤ c ∧ c ≤ 'F' then some (c.toNat - 'A'.toNat + 10)
  else none

/-- `bson.ObjectId(s)` accepts exactly the 24-character hex strings and raises
`bson.errors.InvalidId` otherwise; `none` models the raised `InvalidId`. -/
def parseObjectId (s : String) : Option ObjectId :=
  if s.length = 24 then
    s.data.foldl (fun acc c => acc.bind (fun n => (hexDigit? c).map (fun d => n * 16 + d)))
      (some 0)
  else none

/-- Collection `subtopics` (`class SubTopic(Document)` in `src/app.py`). -/
structure SubTopic where
  id : ObjectId
  name : String
  subject : String
  v1_generated : Bool := false
  v2_cleaned : Bool := false
  v3_verified : Bool := false
  v4_finalized : Bool := false
  deriving DecidableEq, Repr

/-- Collection `upsc_syllabus` (`class UPSCSyllabus(Document)`).  The
`subtopics` list holds the stored reference ids. -/
structure UPSCSyllabus where
  id : ObjectId
  exam : String := "UPSC Civil Services Examination"
  stage : String
  paper : String
  subject : String
  subtopics : List ObjectId := []
  v1 : Bool := false
  v2 : Bool := false
  v3 : Bool := false
  v4 : Bool := false
  deriving DecidableEq, Repr

/-- Collection `micro_units` (`class MicroUnit(Document)`); `subtopic` is the
stored reference id of the owning `SubTopic`. -/
structure MicroUnit where
  id : ObjectId
  name : String
  subject : String
  subtopic : ObjectId
  order : Int := 0
  v5_generated : Bool := false
  v6_verified : Bool := false
  v6_finalized : Bool := false
  deriving DecidableEq, Repr

/-- Collection `micro_unit_notes` (`class MicroUnitNote(Document)`);
`micro_unit` is the stored reference id. -/
structure MicroUnitNote where
  id : ObjectId
  micro_unit : ObjectId
  content : String
  word_count : Option Int := none
  image_required : Bool := false
  image_reasons : List String := []
  v1_generated : Bool := false
  v1_verified : Bool := false
  deriving DecidableEq, Repr

/-- Embedded document `MCQOptionDoc`. -/
structure MCQOptionDoc where
  option : String
  text : String
  deriving DecidableEq, Repr

/-- Embedded document `IndividualMCQDoc`. -/
structure IndividualMCQDoc where
  question_number : Int
  question_text : String
  options : List MCQOptionDoc
  correct_answer : String
  explanation : String
  additional_notes : Option String := none
  image_required : Bool := false
  image_reason : Option String := none
  deriving DecidableEq, Repr

/-- Collection `micro_unit_mcqs` (`class MicroUnitMCQ(Document)`);
`micro_unit` is the stored reference id. -/
structure MicroUnitMCQ where
  id : ObjectId
  micro_unit : ObjectId
  mcq_count : Int
  mcqs : List IndividualMCQDoc
  remarks : Option String := none
  commentary : Option String := none
  content : String
  image_required : Bool := false
  image_reasons : List String := []
  v1_generated : Bool := false
  v1_verified : Bool := false
  deriving DecidableEq, Repr

/-- The five collections the routes read. -/
structure Store where
  subtopics : List SubTopic := []
  syllabus : List UPSCSyllabus := []
  micro_units : List MicroUnit := []
  micro_unit_notes : List MicroUnitNote := []
  micro_unit_mcqs : List MicroUnitMCQ := []
  deriving DecidableEq, Repr

/-- A Python value as it occurs in the routes' set-membership tests: either a
raw `bson.ObjectId`, or a mongoengine `Document` of some class identified by
its primary key. -/
inductive PyVal where
  | oid (i : ObjectId)
  | doc (cls : String) (i : ObjectId)
  deriving DecidableEq, Repr

/-- Python `==` as mongoengine defines it for the values above:
`Document.__eq__` compares primary keys when both operands are documents of
the same class; an `ObjectId` compared with a `Document` is unequal in both
directions (`Document.__eq__` returns `False` for a non-document operand and
`ObjectId.__eq__` returns `NotImplemented` for a non-`ObjectId` operand). -/
def pyEq : PyVal → PyVal → Bool
  | .oid a, .oid b => a == b
  | .doc c a, .doc d b => c == d && a == b
  | _, _ => false

/-- Python `v in s` for a set `s` of the values above: the hashes of a
document and of its primary key coincide, so membership reduces to an
equality scan. -/
def pyMem (v : PyVal) (s : List PyVal) : Bool :=
  s.any (fun w => pyEq w v)

/-- The exceptions the route bodies can raise. -/
inductive Err where
  | doesNotExist
  | multipleObjectsReturned
  | invalidId
  | validationError
  deriving DecidableEq, Repr

/-- One round-trip to the store, tagged by the collection it reads.
`noteMembership` is the single batched `MicroUnitNote` query that feeds the
`distinct("micro_unit")` membership set; `derefFetch` is a dereferencing
fetch of already-identified documents. -/
inductive Query where
  | subtopicFetch
  | syllabusFetch
  | microUnitFetch
  | noteMembership
  | mcqFetch
  | derefFetch
  deriving DecidableEq, BEq, Repr

/-- `MicroUnitNote.objects(...).distinct("micro_unit")`: the distinct stored
ids, dereferenced by mongoengine into `MicroUnit` documents.  Every caller
filters the notes by `micro_unit__in` a list of fetched units, so each id
resolves; an id with no document is dropped by the bulk fetch. -/
def distinctMicroUnitRefs (st : Store) (notes : List MicroUnitNote) : List PyVal :=
  ((notes.map (fun n => n.micro_unit)).dedup).filterMap
    (fun i => (st.micro_units.find? (fun u => u.id == i)).map
      (fun u => PyVal.doc "MicroUnit" u.id))

/-- Route `/subjects`: `UPSCSyllabus.objects(v4=True).distinct("subject")`. -/
def list_subjects (st : Store) : List String :=
  ((st.syllabus.filter (fun s => s.v4)).map (fun s => s.subject)).dedup

/-- Row of the `/syllabus/<subject>` response. -/
structure SyllabusRow where
  stage : String
  paper : String
  exam : String
  deriving DecidableEq, Repr

/-- Route `/syllabus/<subject>`. -/
def syllabus_by_subject (st : Store) (subject : String) : List SyllabusRow :=
  (st.syllabus.filter (fun s => s.subject == subject && s.v4)).map
    (fun s => { stage := s.stage, paper := s.paper, exam := s.exam })

/-- Row of the `/subtopics/<subject>` response. -/
structure SubtopicRow where
  name : String
  has_notes : Bool
  deriving DecidableEq, Repr

/-- One iteration of the `for mu in micro_units` loop of
`subtopics_by_subject`: when `mu.id in noted_units` holds, dereference
`mu.subtopic` (a per-document fetch that raises `DoesNotExist` on a dangling
reference) and record the owning subtopic id as having notes. -/
def subtopicsLoopStep (st : Store) (noted_units : List PyVal)
    (acc : List Query × Except Err (List ObjectId)) (mu : MicroUnit) :
    List Query × Except Err (List ObjectId) :=
  match acc with
  | (qs, Except.error e) => (qs, Except.error e)
  | (qs, Except.ok marked) =>
    if pyMem (PyVal.oid mu.id) noted_units then
      match st.subtopics.find? (fun s => s.id == mu.subtopic) with
      | some s => (qs ++ [Query.derefFetch], Except.ok (marked ++ [s.id]))
      | none => (qs ++ [Query.derefFetch], Except.error Err.doesNotExist)
    else (qs, Except.ok marked)

/-- Route `/subtopics/<subject>`.  Returns the queries issued and the
response.  The loop tests `mu.id in noted_units` with a raw `ObjectId`
against the document set `noted_units`. -/
def subtopics_by_subject (st : Store) (subject : String) :
    List Query × Except Err (List SubtopicRow) :=
  let subtopics := st.subtopics.filter (fun s => s.subject == subject)
  let micro_units := st.micro_units.filter
    (fun mu => subtopics.any (fun s => s.id == mu.subtopic))
  let noted_units := distinctMicroUnitRefs st
    (st.micro_unit_notes.filter
      (fun n => micro_units.any (fun mu => mu.id == n.micro_unit)))
  let loop := micro_units.foldl (subtopicsLoopStep st noted_units)
    (([] : List Query), Except.ok ([] : List ObjectId))
  ([Query.subtopicFetch, Query.microUnitFetch, Query.noteMembership, Query.derefFetch]
      ++ loop.1,
   loop.2.map (fun marked =>
     subtopics.map (fun s => { name := s.name, has_notes := marked.contains s.id })))

/-- `SubTopic.objects.get(name=..., subject=..., v4_finalized=True)`:
`DoesNotExist` on no match, `MultipleObjectsReturned` on more than one. -/
def get_subtopic (st : Store) (name subject : String) : Except Err SubTopic :=
  match st.subtopics.filter
      (fun s => s.name == name && s.subject == subject && s.v4_finalized) with
  | [] => Except.error Err.doesNotExist
  | [s] => Except.ok s
  | _ :: _ :: _ => Except.error Err.multipleObjectsReturned

/-- The ascending-`order` comparison used by `.order_by("order")`. -/
def orderLE (a b : MicroUnit) : Prop := a.order ≤ b.order

instance : DecidableRel orderLE :=
  fun a b => inferInstanceAs (Decidable (a.order ≤ b.order))

instance : IsTotal MicroUnit orderLE :=
  ⟨fun a b => Int.le_total a.order b.order⟩

instance : IsTrans MicroUnit orderLE :=
  ⟨fun _ _ _ h h' => le_trans h h'⟩

/-- `.order_by("order")`: a stable ascending sort on the stored `order`. -/
def sort_by_order (us : List MicroUnit) : List MicroUnit :=
  us.insertionSort orderLE

/-- Row of the `/micro-units/<subject>/<subtopic_name>` response (the source
serialises the id with `str(u.id)` at the JSON boundary). -/
structure UnitRow where
  id : ObjectId
  name : String
  order : Int
  has_notes : Bool
  deriving DecidableEq, Repr

/-- Route `/micro-units/<subject>/<subtopic_name>`.  Returns the queries
issued and the response.  Here the membership test `u in notes_map` compares
the fetched `MicroUnit` document against the dereferenced document set. -/
def micro_units_by_subtopic (st : Store) (subject subtopic_name : String) :
    List Query × Except Err (List UnitRow) :=
  match get_subtopic st subtopic_name subject with
  | Except.error e => ([Query.subtopicFetch], Except.error e)
  | Except.ok subtopic =>
    let units := sort_by_order
      (st.micro_units.filter (fun u => u.subtopic == subtopic.id && u.v6_finalized))
    let notes_map := distinctMicroUnitRefs st
      (st.micro_unit_notes.filter
        (fun n => units.any (fun u => u.id == n.micro_unit)))
    ([Query.subtopicFetch, Query.microUnitFetch, Query.noteMembership, Query.derefFetch],
     Except.ok (units.map (fun u =>
       { id := u.id, name := u.name, order := u.order,
         has_notes := pyMem (PyVal.doc "MicroUnit" u.id) notes_map })))

/-- Response of `/notes/<micro_unit_id>`. -/
structure NoteResponse where
  micro_unit_id : String
  content : String
  deriving DecidableEq, Repr

/-- Body of `/notes/<micro_unit_id>` after the id has parsed:
`MicroUnit.objects.get(id=...)`, then
`MicroUnitNote.objects.get(micro_unit=...)`; each `get` raises
`DoesNotExist` on no match and `MultipleObjectsReturned` past one. -/
def notes_lookup (st : Store) (micro_unit_id : String) (i : ObjectId) :
    Except Err NoteResponse :=
  match st.micro_units.filter (fun u => u.id == i) with
  | [] => Except.error Err.doesNotExist
  | [micro_unit] =>
    match st.micro_unit_notes.filter (fun n => n.micro_unit == micro_unit.id) with
    | [] => Except.error Err.doesNotExist
    | [note] => Except.ok { micro_unit_id := micro_unit_id, content := note.content }
    | _ :: _ :: _ => Except.error Err.multipleObjectsReturned
  | _ :: _ :: _ => Except.error Err.multipleObjectsReturned

/-- Route `/notes/<micro_unit_id>`: `ObjectId(micro_unit_id)` raises
`InvalidId` on a malformed string, then the two `get` calls run. -/
def notes_by_micro_unit (st : Store) (micro_unit_id : String) :
    Except Err NoteResponse :=
  match parseObjectId micro_unit_id with
  | none => Except.error Err.invalidId
  | some i => notes_lookup st micro_unit_id i

/-- Response of `/mcqs/<micro_unit_id>`: the handler rebuilds every question
and option field from the stored document. -/
structure McqResponse where
  mcq_count : Int
  mcqs : List IndividualMCQDoc
  deriving DecidableEq, Repr

/-- Body of `/mcqs/<micro_unit_id>` after the id conversion:
`MicroUnitMCQ.objects.get(micro_unit=...)` and the serialisation of the
stored document; the `MicroUnit` collection itself is never consulted. -/
def mcqs_lookup (st : Store) (i : ObjectId) : Except Err McqResponse :=
  match st.micro_unit_mcqs.filter (fun m => m.micro_unit == i) with
  | [] => Except.error Err.doesNotExist
  | [mcq] =>
    Except.ok
      { mcq_count := mcq.mcq_count,
        mcqs := mcq.mcqs.map (fun q =>
          { question_number := q.question_number,
            question_text := q.question_text,
            options := q.options.map (fun o => { option := o.option, text := o.text }),
            correct_answer := q.correct_answer,
            explanation := q.explanation,
            additional_notes := q.additional_notes,
            image_required := q.image_required,
            image_reason := q.image_reason }) }
  | _ :: _ :: _ => Except.error Err.multipleObjectsReturned

/-- Route `/mcqs/<micro_unit_id>`: mongoengine converts the string to the
reference's id type before querying (`ObjectIdField.to_mongo`), turning a
malformed string into a `ValidationError`, then the `get` runs. -/
def mcqs_by_micro_unit (st : Store) (micro_unit_id : String) :
    Except Err McqResponse :=
  match parseObjectId micro_unit_id with
  | none => Except.error Err.validationError
  | some i => mcqs_lookup st i

/-! ### Helper lemmas about the embedded operations -/

lemma pyMem_oid_distinct (st : Store) (ns : List MicroUnitNote) (i : ObjectId) :
    pyMem (PyVal.oid i) (distinctMicroUnitRefs st ns) = false := by
  unfold pyMem
  rw [List.any_eq_false]
  intro w hw
  unfold distinctMicroUnitRefs at hw
  rw [List.mem_filterMap] at hw
  obtain ⟨j, hj, hmap⟩ := hw
  obtain ⟨u, hfind, rfl⟩ := Option.map_eq_some'.mp hmap
  simp [pyEq]

lemma pyMem_doc_distinct_iff (st : Store) (ns : List MicroUnitNote) (i : ObjectId)
    (hex : ∃ u ∈ st.micro_units, u.id = i) :
    pyMem (PyVal.doc "MicroUnit" i) (distinctMicroUnitRefs st ns) = true ↔
      ∃ n ∈ ns, n.micro_unit = i := by
  constructor
  · intro h
    unfold pyMem at h
    rw [List.any_eq_true] at h
    obtain ⟨w, hw, hpe⟩ := h
    unfold distinctMicroUnitRefs at hw
    rw [List.mem_filterMap] at hw
    obtain ⟨j, hj, hmap⟩ := hw
    obtain ⟨u, hfind, rfl⟩ := Option.map_eq_some'.mp hmap
    have hui : u.id = i := by simpa [pyEq] using hpe
    have huj : u.id = j := by simpa using List.find?_some hfind
    rw [List.mem_dedup, List.mem_map] at hj
    obtain ⟨n, hn, hnj⟩ := hj
    exact ⟨n, hn, by rw [hnj, ← huj, hui]⟩
  · rintro ⟨n, hn, hni⟩
    obtain ⟨u, hu, hui⟩ := hex
    unfold pyMem
    rw [List.any_eq_true]
    have hj : i ∈ ((ns.map (fun n => n.micro_unit)).dedup) := by
      rw [List.mem_dedup, List.mem_map]
      exact ⟨n, hn, hni⟩
    have hsome : (st.micro_units.find? (fun u' => u'.id == i)).isSome := by
      rw [List.find?_isSome]
      exact ⟨u, hu, by simp [hui]⟩
    obtain ⟨u', hu'⟩ := Option.isSome_iff_exists.mp hsome
    refine ⟨PyVal.doc "MicroUnit" u'.id, ?_, ?_⟩
    · unfold distinctMicroUnitRefs
      rw [List.mem_filterMap]
      exact ⟨i, hj, by rw [hu']; rfl⟩
    · have h' : u'.id = i := by simpa using List.find?_some hu'
      simp [pyEq, h']

lemma foldl_fixed {α β : Type} (f : β → α → β) (init : β)
    (hf : ∀ a, f init a = init) : ∀ l : List α, l.foldl f init = init := by
  intro l
  induction l with
  | nil => rfl
  | cons a t ih => rw [List.foldl_cons, hf a]; exact ih

lemma subtopicsLoopStep_fixed (st : Store) (ns : List MicroUnitNote)
    (acc : List Query × Except Err (List ObjectId)) (mu : MicroUnit) :
    subtopicsLoopStep st (distinctMicroUnitRefs st ns) acc mu = acc := by
  obtain ⟨qs, r⟩ := acc
  cases r with
  | error e => rfl
  | ok marked => simp [subtopicsLoopStep, pyMem_oid_distinct]

lemma subtopics_by_subject_eq (st : Store) (subject : String) :
    subtopics_by_subject st subject =
      ([Query.subtopicFetch, Query.microUnitFetch, Query.noteMembership,
        Query.derefFetch],
       Except.ok ((st.subtopics.filter (fun s => s.subject == subject)).map
         (fun s => { name := s.name, has_notes := false }))) := by
  simp only [subtopics_by_subject]
  rw [foldl_fixed _ _ (fun mu => subtopicsLoopStep_fixed st _ _ mu)]
  simp [Except.map]

/-! ### Fixture stores -/

/-- A store in which the only subtopic of subject "History" owns a noted
micro-unit: the configuration the spec says must make `/subtopics/History`
report `has_notes = true`. -/
def WbugStore : Store :=
  { subtopics := [{ id := 1, name := "Ancient India", subject := "History",
                    v4_finalized := true }],
    micro_units := [{ id := 10, name := "Guptas", subject := "History",
                      subtopic := 1, order := 1, v6_finalized := true }],
    micro_unit_notes := [{ id := 20, micro_unit := 10, content := "Gupta notes" }] }

/-- The spec scenario of section 8: subject "History", finalized subtopic
"Ancient India", finalized micro-units Mauryas (order 2, stored first) and
Guptas (order 1), and a note only for Guptas. -/
def WfixStore : Store :=
  { subtopics := [{ id := 1, name := "Ancient India", subject := "History",
                    v4_finalized := true }],
    syllabus := [{ id := 5, stage := "Prelims", paper := "GS1",
                   subject := "History", v4 := true }],
    micro_units := [{ id := 11, name := "Mauryas", subject := "History",
                      subtopic := 1, order := 2, v6_finalized := true },
                    { id := 10, name := "Guptas", subject := "History",
                      subtopic := 1, order := 1, v6_finalized := true }],
    micro_unit_notes := [{ id := 20, micro_unit := 10, content := "Gupta notes" }] }

/-! ### Claim theorems -/

/-- C1 counterexample evaluation: `WbugStore` has a subtopic of subject
"History" whose micro-unit carries a note, yet `/subtopics/History` reports
`has_notes = false` for it — the handler's `mu.id in noted_units` test
compares a raw `ObjectId` with the `MicroUnit` documents that
`distinct("micro_unit")` dereferences, so it never succeeds. -/
theorem subtopics_has_notes_false_despite_note :
    (∃ s ∈ WbugStore.subtopics, ∃ mu ∈ WbugStore.micro_units,
      ∃ n ∈ WbugStore.micro_unit_notes,
        s.subject = "History" ∧ mu.subtopic = s.id ∧ n.micro_unit = mu.id)
    ∧ (subtopics_by_subject WbugStore "History").2 =
        Except.ok [{ name := "Ancient India", has_notes := false }]
    ∧ (∀ st : Store, ∀ subject : String, (subtopics_by_subject st subject).2 =
        Except.ok ((st.subtopics.filter (fun t => t.subject == subject)).map
          (fun t => { name := t.name, has_notes := false }))) :=
  ⟨by decide, by decide,
   fun st subject => congrArg Prod.snd (subtopics_by_subject_eq st subject)⟩

/-- C5: an identifier string that `bson.ObjectId` cannot parse makes the
`/notes/<micro_unit_id>` handler fail with the malformed-input outcome
(`InvalidId`), never with any other error and never with a success. -/
theorem notes_malformed_id_rejected (st : Store) (s : String)
    (h : parseObjectId s = none) :
    notes_by_micro_unit st s = Except.error Err.invalidId := by
  unfold notes_by_micro_unit
  rw [h]

theorem notes_malformed_id_rejected_witness :
    notes_by_micro_unit {} "not-an-objectid" = Except.error Err.invalidId :=
  notes_malformed_id_rejected {} "not-an-objectid" (by decide)

/-- C6: `/subjects` contains a subject S iff some syllabus document has
`subject = S` and `v4 = true`, and the returned list has no duplicates. -/
theorem subjects_v4_membership_and_nodup (st : Store) (S : String) :
    (S ∈ list_subjects st ↔ ∃ d ∈ st.syllabus, d.subject = S ∧ d.v4 = true)
    ∧ (list_subjects st).Nodup := by
  refine ⟨?_, List.nodup_dedup _⟩
  unfold list_subjects
  rw [List.mem_dedup]
  constructor
  · intro h
    rw [List.mem_map] at h
    obtain ⟨d, hd, rfl⟩ := h
    rw [List.mem_filter] at hd
    exact ⟨d, hd.1, rfl, hd.2⟩
  · rintro ⟨d, hd, rfl, hv⟩
    rw [List.mem_map]
    refine ⟨d, ?_, rfl⟩
    rw [List.mem_filter]
    exact ⟨hd, hv⟩

lemma micro_units_by_subtopic_err (st : Store) (subject subtopic_name : String)
    (e : Err) (hg : get_subtopic st subtopic_name subject = Except.error e) :
    micro_units_by_subtopic st subject subtopic_name =
      ([Query.subtopicFetch], Except.error e) := by
  unfold micro_units_by_subtopic
  rw [hg]

lemma micro_units_by_subtopic_ok (st : Store) (subject subtopic_name : String)
    (tdoc : SubTopic) (hg : get_subtopic st subtopic_name subject = Except.ok tdoc) :
    micro_units_by_subtopic st subject subtopic_name =
      ([Query.subtopicFetch, Query.microUnitFetch, Query.noteMembership,
        Query.derefFetch],
       Except.ok ((sort_by_order (st.micro_units.filter
           (fun u => u.subtopic == tdoc.id && u.v6_finalized))).map (fun u =>
         { id := u.id, name := u.name, order := u.order,
           has_notes := pyMem (PyVal.doc "MicroUnit" u.id)
             (distinctMicroUnitRefs st (st.micro_unit_notes.filter
               (fun n => (sort_by_order (st.micro_units.filter
                 (fun v => v.subtopic == tdoc.id && v.v6_finalized))).any
                   (fun v => v.id == n.micro_unit)))) }))) := by
  unfold micro_units_by_subtopic
  rw [hg]

lemma mem_sort_by_order {u : MicroUnit} {l : List MicroUnit} :
    u ∈ sort_by_order l ↔ u ∈ l := by
  unfold sort_by_order
  exact (List.perm_insertionSort orderLE l).mem_iff

/-- C2: listing micro-units requires the named subtopic to exist with
`v4_finalized = true` (otherwise the handler fails with `DoesNotExist`, the
not-found outcome) and every unit it returns has `v6_finalized = true`;
listing subtopics applies no finalization gate: every stored subtopic of the
subject appears in the response whatever its stage flags. -/
theorem finalization_gate_asymmetry (st : Store) (subject subtopic_name : String) :
    ((¬ ∃ t ∈ st.subtopics, t.name = subtopic_name ∧ t.subject = subject ∧
        t.v4_finalized = true) →
      (micro_units_by_subtopic st subject subtopic_name).2 =
        Except.error Err.doesNotExist)
    ∧ (∀ rows, (micro_units_by_subtopic st subject subtopic_name).2 = Except.ok rows →
        ∀ r ∈ rows, ∃ u ∈ st.micro_units, u.id = r.id ∧ u.v6_finalized = true)
    ∧ (∀ t ∈ st.subtopics, t.subject = subject →
        ∃ rows, (subtopics_by_subject st subject).2 = Except.ok rows ∧
          t.name ∈ rows.map SubtopicRow.name) := by
  refine ⟨?_, ?_, ?_⟩
  · intro hno
    have hfil : st.subtopics.filter
        (fun s => s.name == subtopic_name && s.subject == subject && s.v4_finalized)
          = [] := by
      rw [List.filter_eq_nil_iff]
      intro t ht hc
      simp only [Bool.and_eq_true, beq_iff_eq] at hc
      exact hno ⟨t, ht, hc.1.1, hc.1.2, hc.2⟩
    have hg : get_subtopic st subtopic_name subject = Except.error Err.doesNotExist := by
      unfold get_subtopic
      rw [hfil]
    rw [micro_units_by_subtopic_err st subject subtopic_name _ hg]
  · intro rows hrows r hr
    cases hg : get_subtopic st subtopic_name subject with
    | error e =>
      rw [micro_units_by_subtopic_err st subject subtopic_name e hg] at hrows
      cases hrows
    | ok tdoc =>
      rw [micro_units_by_subtopic_ok st subject subtopic_name tdoc hg] at hrows
      simp only [Except.ok.injEq] at hrows
      subst hrows
      rw [List.mem_map] at hr
      obtain ⟨u, hu, rfl⟩ := hr
      rw [mem_sort_by_order, List.mem_filter] at hu
      obtain ⟨humem, hcond⟩ := hu
      simp only [Bool.and_eq_true, beq_iff_eq] at hcond
      exact ⟨u, humem, rfl, hcond.2⟩
  · intro t ht hts
    refine ⟨_, congrArg Prod.snd (subtopics_by_subject_eq st subject), ?_⟩
    rw [List.mem_map]
    refine ⟨⟨t.name, false⟩, ?_, rfl⟩
    rw [List.mem_map]
    refine ⟨t, ?_, rfl⟩
    rw [List.mem_filter]
    exact ⟨ht, by simp [hts]⟩

/-- C3: the micro-unit listing is sorted ascending by the stored `order` for
every store, each row's `has_notes` holds iff some stored note references
that unit, and on the History fixture the result is Guptas (order 1, with
notes) before Mauryas (order 2, without). -/
theorem micro_units_sorted_and_has_notes (st : Store) (subject subtopic_name : String) :
    (∀ rows, (micro_units_by_subtopic st subject subtopic_name).2 = Except.ok rows →
      List.Pairwise (fun a b : UnitRow => a.order ≤ b.order) rows
      ∧ ∀ r ∈ rows,
          (r.has_notes = true ↔ ∃ n ∈ st.micro_unit_notes, n.micro_unit = r.id))
    ∧ (micro_units_by_subtopic WfixStore "History" "Ancient India").2.map
        (fun rows => rows.map (fun r => (r.name, r.order, r.has_notes)))
        = Except.ok [("Guptas", 1, true), ("Mauryas", 2, false)] := by
  constructor
  · intro rows hrows
    cases hg : get_subtopic st subtopic_name subject with
    | error e =>
      rw [micro_units_by_subtopic_err st subject subtopic_name e hg] at hrows
      cases hrows
    | ok tdoc =>
      rw [micro_units_by_subtopic_ok st subject subtopic_name tdoc hg] at hrows
      simp only [Except.ok.injEq] at hrows
      subst hrows
      constructor
      · have hs : List.Sorted orderLE (sort_by_order (st.micro_units.filter
            (fun u => u.subtopic == tdoc.id && u.v6_finalized))) := by
          unfold sort_by_order
          exact List.sorted_insertionSort orderLE _
        exact hs.map _ (fun a b h => h)
      · intro r hr
        rw [List.mem_map] at hr
        obtain ⟨u, hu, rfl⟩ := hr
        have humem : u ∈ st.micro_units := by
          rw [mem_sort_by_order, List.mem_filter] at hu
          exact hu.1
        simp only []
        rw [pyMem_doc_distinct_iff st _ u.id ⟨u, humem, rfl⟩]
        constructor
        · rintro ⟨n, hn, hni⟩
          exact ⟨n, (List.mem_filter.mp hn).1, hni⟩
        · rintro ⟨n, hn, hni⟩
          refine ⟨n, ?_, hni⟩
          rw [List.mem_filter]
          refine ⟨hn, ?_⟩
          rw [List.any_eq_true]
          exact ⟨u, hu, by simp [hni]⟩
  · decide

lemma filter_key_no_two {α β : Type} [DecidableEq β] {l : List α} {f : α → β} {x : β}
    {p : α → Bool} (hp : ∀ a, p a = true → f a = x)
    (hn : (l.map f).Nodup) {a b : α} {t : List α}
    (h : l.filter p = a :: b :: t) : False := by
  have ha : a ∈ l.filter p := by
    rw [h]
    exact List.mem_cons_self a (b :: t)
  have hb : b ∈ l.filter p := by
    rw [h]
    exact List.mem_cons_of_mem a (List.mem_cons_self b t)
  have hfa : f a = x := hp a (List.of_mem_filter ha)
  have hfb : f b = x := hp b (List.of_mem_filter hb)
  have hnd : ((l.filter p).map f).Nodup := hn.sublist ((List.filter_sublist l).map f)
  rw [h] at hnd
  simp only [List.map_cons, List.nodup_cons, List.mem_cons] at hnd
  exact hnd.1 (Or.inl (hfa.trans hfb.symm))

lemma notes_by_micro_unit_parsed (st : Store) (s : String) (i : ObjectId)
    (hs : parseObjectId s = some i) :
    notes_by_micro_unit st s = notes_lookup st s i := by
  unfold notes_by_micro_unit
  rw [hs]

lemma mcqs_by_micro_unit_parsed (st : Store) (s : String) (i : ObjectId)
    (hs : parseObjectId s = some i) :
    mcqs_by_micro_unit st s = mcqs_lookup st i := by
  unfold mcqs_by_micro_unit
  rw [hs]

/-- C4: with a well-formed id, `/notes/<id>` fails with `DoesNotExist` (the
not-found outcome, never a default or empty-content success) whenever no
stored note references that unit — whether the unit itself is absent or
merely unnoted — and `/mcqs/<id>` fails with `DoesNotExist` whenever no
`MicroUnitMCQ` document references the id. -/
theorem missing_note_and_mcq_not_found (st : Store) (s : String) (i : ObjectId)
    (hs : parseObjectId s = some i)
    (hpk : (st.micro_units.map (fun u => u.id)).Nodup) :
    ((¬ ∃ n ∈ st.micro_unit_notes, n.micro_unit = i) →
        notes_by_micro_unit st s = Except.error Err.doesNotExist)
    ∧ ((¬ ∃ m ∈ st.micro_unit_mcqs, m.micro_unit = i) →
        mcqs_by_micro_unit st s = Except.error Err.doesNotExist) := by
  constructor
  · intro hno
    rw [notes_by_micro_unit_parsed st s i hs]
    unfold notes_lookup
    cases hf : st.micro_units.filter (fun u => u.id == i) with
    | nil => rfl
    | cons u rest =>
      cases rest with
      | cons u2 r2 =>
        exact (filter_key_no_two (fun a ha => by simpa using ha) hpk hf).elim
      | nil =>
        have humem : u ∈ st.micro_units.filter (fun v => v.id == i) := by
          rw [hf]
          exact List.mem_cons_self u []
        have hui : u.id = i := by simpa using List.of_mem_filter humem
        have hnil : st.micro_unit_notes.filter (fun n => n.micro_unit == u.id) = [] := by
          rw [List.filter_eq_nil_iff]
          intro n hn hc
          exact hno ⟨n, hn, by simpa [hui] using hc⟩
        simp only [hnil]
  · intro hno
    rw [mcqs_by_micro_unit_parsed st s i hs]
    unfold mcqs_lookup
    have hnil : st.micro_unit_mcqs.filter (fun m => m.micro_unit == i) = [] := by
      rw [List.filter_eq_nil_iff]
      intro m hm hc
      exact hno ⟨m, hm, by simpa using hc⟩
    rw [hnil]

theorem missing_note_and_mcq_not_found_witness :
    notes_by_micro_unit WfixStore "000000000000000000000003" =
      Except.error Err.doesNotExist
    ∧ mcqs_by_micro_unit WfixStore "000000000000000000000003" =
      Except.error Err.doesNotExist := by
  have h := missing_note_and_mcq_not_found WfixStore "000000000000000000000003" 3
    (by decide) (by decide)
  exact ⟨h.1 (by decide), h.2 (by decide)⟩

/-- The single question of the `WmcqStore` fixture. -/
def WmcqQuestion : IndividualMCQDoc :=
  { question_number := 1, question_text := "Q1",
    options := [{ option := "A", text := "yes" }, { option := "B", text := "no" }],
    correct_answer := "A", explanation := "because" }

/-- A store holding one MCQ document for unit id 7 — and no micro-unit
documents at all. -/
def WmcqStore : Store :=
  { micro_unit_mcqs := [{ id := 30, micro_unit := 7, mcq_count := 1,
                          mcqs := [WmcqQuestion], content := "mcq content" }] }

/-- C7: when every stored `MicroUnitMCQ` satisfies the data-model invariant
`mcq_count = length of mcqs`, every `/mcqs/<id>` response satisfies it too:
the handler copies both fields from the stored document without silently
correcting either. -/
theorem mcq_count_matches_length (st : Store) (s : String)
    (hinv : ∀ m ∈ st.micro_unit_mcqs, m.mcq_count = (m.mcqs.length : Int)) :
    ∀ r, mcqs_by_micro_unit st s = Except.ok r →
      r.mcq_count = (r.mcqs.length : Int) := by
  intro r h
  cases hp : parseObjectId s with
  | none =>
    have hv : mcqs_by_micro_unit st s = Except.error Err.validationError := by
      unfold mcqs_by_micro_unit
      rw [hp]
    rw [hv] at h
    cases h
  | some i =>
    rw [mcqs_by_micro_unit_parsed st s i hp] at h
    unfold mcqs_lookup at h
    cases hf : st.micro_unit_mcqs.filter (fun m => m.micro_unit == i) with
    | nil =>
      rw [hf] at h
      cases h
    | cons m rest =>
      cases rest with
      | cons m2 r2 =>
        rw [hf] at h
        cases h
      | nil =>
        rw [hf] at h
        simp only [Except.ok.injEq] at h
        subst h
        have hm : m ∈ st.micro_unit_mcqs := by
          have hmem : m ∈ st.micro_unit_mcqs.filter (fun m' => m'.micro_unit == i) := by
            rw [hf]
            exact List.mem_cons_self m []
          exact List.mem_of_mem_filter hmem
        simp [hinv m hm]

theorem mcq_count_matches_length_witness :
    ({ mcq_count := 1, mcqs := [WmcqQuestion] } : McqResponse).mcq_count =
      (({ mcq_count := 1, mcqs := [WmcqQuestion] } : McqResponse).mcqs.length : Int) :=
  mcq_count_matches_length WmcqStore "000000000000000000000007" (by decide)
    { mcq_count := 1, mcqs := [WmcqQuestion] } (by decide)

/-- A store whose required references all dangle: its micro-unit points at
subtopic 99 (absent), its note at unit 500 (absent), its MCQ document at
unit 600 (absent). -/
def WdangleStore : Store :=
  { subtopics := [{ id := 1, name := "T", subject := "S", v4_finalized := true }],
    micro_units := [{ id := 10, name := "U", subject := "S", subtopic := 99,
                      v6_finalized := true }],
    micro_unit_notes := [{ id := 20, micro_unit := 500, content := "orphan" }],
    micro_unit_mcqs := [{ id := 30, micro_unit := 600, mcq_count := 0, mcqs := [],
                          content := "orphan" }] }

/-- C8: under the store-enforced uniqueness invariants (unique primary keys
for micro-units and the declared unique indexes on `(name, subject)` and on
the two note/MCQ references) but with NO referential-integrity assumption —
dangling references allowed — every fallible read handler either completes
or fails with `DoesNotExist`, the not-found condition; `/subjects` and
`/syllabus/<subject>` are total by construction. -/
theorem read_paths_complete_or_not_found (st : Store)
    (hsub : (st.subtopics.map (fun t => (t.name, t.subject))).Nodup)
    (hpk : (st.micro_units.map (fun u => u.id)).Nodup)
    (hnote : (st.micro_unit_notes.map (fun n => n.micro_unit)).Nodup)
    (hmcq : (st.micro_unit_mcqs.map (fun m => m.micro_unit)).Nodup)
    (subject subtopic_name s : String) (i : ObjectId)
    (hs : parseObjectId s = some i) :
    (∃ rows, (subtopics_by_subject st subject).2 = Except.ok rows)
    ∧ ((∃ rows, (micro_units_by_subtopic st subject subtopic_name).2 = Except.ok rows)
        ∨ (micro_units_by_subtopic st subject subtopic_name).2 =
            Except.error Err.doesNotExist)
    ∧ ((∃ resp, notes_by_micro_unit st s = Except.ok resp)
        ∨ notes_by_micro_unit st s = Except.error Err.doesNotExist)
    ∧ ((∃ resp, mcqs_by_micro_unit st s = Except.ok resp)
        ∨ mcqs_by_micro_unit st s = Except.error Err.doesNotExist) := by
  refine ⟨⟨_, congrArg Prod.snd (subtopics_by_subject_eq st subject)⟩, ?_, ?_, ?_⟩
  · cases hf : st.subtopics.filter
        (fun t => t.name == subtopic_name && t.subject == subject && t.v4_finalized) with
    | nil =>
      right
      have hg : get_subtopic st subtopic_name subject = Except.error Err.doesNotExist := by
        unfold get_subtopic
        rw [hf]
      rw [micro_units_by_subtopic_err st subject subtopic_name _ hg]
    | cons tdoc rest =>
      cases rest with
      | nil =>
        left
        have hg : get_subtopic st subtopic_name subject = Except.ok tdoc := by
          unfold get_subtopic
          rw [hf]
        exact ⟨_, congrArg Prod.snd
          (micro_units_by_subtopic_ok st subject subtopic_name tdoc hg)⟩
      | cons t2 r2 =>
        have hp : ∀ a : SubTopic,
            (a.name == subtopic_name && a.subject == subject && a.v4_finalized) = true →
              (fun t : SubTopic => (t.name, t.subject)) a = (subtopic_name, subject) := by
          intro a ha
          simp only [Bool.and_eq_true, beq_iff_eq] at ha
          simp only []
          rw [ha.1.1, ha.1.2]
        exact (filter_key_no_two hp hsub hf).elim
  · rw [notes_by_micro_unit_parsed st s i hs]
    unfold notes_lookup
    cases hfu : st.micro_units.filter (fun u => u.id == i) with
    | nil =>
      right
      rfl
    | cons u rest =>
      cases rest with
      | cons u2 r2 =>
        exact (filter_key_no_two (fun a ha => by simpa using ha) hpk hfu).elim
      | nil =>
        cases hfn : st.micro_unit_notes.filter (fun n => n.micro_unit == u.id) with
        | nil =>
          right
          simp only [hfn]
        | cons n rest2 =>
          cases rest2 with
          | nil =>
            left
            refine ⟨{ micro_unit_id := s, content := n.content }, ?_⟩
            simp only [hfn]
          | cons n2 r3 =>
            exact (filter_key_no_two (fun a ha => by simpa using ha) hnote hfn).elim
  · rw [mcqs_by_micro_unit_parsed st s i hs]
    unfold mcqs_lookup
    cases hfm : st.micro_unit_mcqs.filter (fun m => m.micro_unit == i) with
    | nil =>
      right
      rfl
    | cons m rest =>
      cases rest with
      | nil =>
        left
        exact ⟨_, rfl⟩
      | cons m2 r2 =>
        exact (filter_key_no_two (fun a ha => by simpa using ha) hmcq hfm).elim

theorem read_paths_complete_or_not_found_witness :
    (∃ rows, (subtopics_by_subject WdangleStore "S").2 = Except.ok rows)
    ∧ ((∃ rows, (micro_units_by_subtopic WdangleStore "S" "T").2 = Except.ok rows)
        ∨ (micro_units_by_subtopic WdangleStore "S" "T").2 =
            Except.error Err.doesNotExist)
    ∧ ((∃ resp, notes_by_micro_unit WdangleStore "00000000000000000000000a" =
          Except.ok resp)
        ∨ notes_by_micro_unit WdangleStore "00000000000000000000000a" =
            Except.error Err.doesNotExist)
    ∧ ((∃ resp, mcqs_by_micro_unit WdangleStore "00000000000000000000000a" =
          Except.ok resp)
        ∨ mcqs_by_micro_unit WdangleStore "00000000000000000000000a" =
            Except.error Err.doesNotExist) :=
  read_paths_complete_or_not_found WdangleStore (by decide) (by decide) (by decide)
    (by decide) "S" "T" "00000000000000000000000a" 10 (by decide)

/-- C9: both notes-existence computations issue exactly one batched
`MicroUnitNote` membership query over the whole candidate set:
`/subtopics/<subject>` always, and `/micro-units/...` exactly one whenever it
returns a listing (and none after its not-found early exit) — never one
notes query per micro-unit. -/
theorem single_note_membership_query (st : Store) (subject subtopic_name : String) :
    ((subtopics_by_subject st subject).1.count Query.noteMembership = 1)
    ∧ ((micro_units_by_subtopic st subject subtopic_name).1.count
        Query.noteMembership ≤ 1)
    ∧ (∀ rows, (micro_units_by_subtopic st subject subtopic_name).2 = Except.ok rows →
        (micro_units_by_subtopic st subject subtopic_name).1.count
          Query.noteMembership = 1) := by
  refine ⟨?_, ?_, ?_⟩
  · rw [subtopics_by_subject_eq]
    rfl
  · cases hg : get_subtopic st subtopic_name subject with
    | error e =>
      rw [micro_units_by_subtopic_err st subject subtopic_name e hg]
      exact Nat.zero_le 1
    | ok tdoc =>
      rw [micro_units_by_subtopic_ok st subject subtopic_name tdoc hg]
      exact Nat.le_refl 1
  · intro rows hrows
    cases hg : get_subtopic st subtopic_name subject with
    | error e =>
      rw [micro_units_by_subtopic_err st subject subtopic_name e hg] at hrows
      cases hrows
    | ok tdoc =>
      rw [micro_units_by_subtopic_ok st subject subtopic_name tdoc hg]
      rfl

theorem single_note_membership_query_witness :
    (micro_units_by_subtopic WfixStore "History" "Ancient India").1.count
      Query.noteMembership = 1 :=
  (single_note_membership_query WfixStore "History" "Ancient India").2.2
    [{ id := 10, name := "Guptas", order := 1, has_notes := true },
     { id := 11, name := "Mauryas", order := 2, has_notes := false }] (by decide)

/-- C10: `/mcqs/<id>` never resolves the micro-unit itself: whenever some
(by the unique index, exactly one) `MicroUnitMCQ` document references the
id, the handler succeeds — with no assumption at all on
`Store.micro_units`. -/
theorem mcqs_succeed_without_micro_unit (st : Store) (s : String) (i : ObjectId)
    (hs : parseObjectId s = some i)
    (hmcq : (st.micro_unit_mcqs.map (fun m => m.micro_unit)).Nodup)
    (hex : ∃ m ∈ st.micro_unit_mcqs, m.micro_unit = i) :
    ∃ r, mcqs_by_micro_unit st s = Except.ok r := by
  rw [mcqs_by_micro_unit_parsed st s i hs]
  unfold mcqs_lookup
  cases hf : st.micro_unit_mcqs.filter (fun m => m.micro_unit == i) with
  | nil =>
    obtain ⟨m, hm, hmi⟩ := hex
    have hmem : m ∈ st.micro_unit_mcqs.filter (fun m' => m'.micro_unit == i) := by
      rw [List.mem_filter]
      exact ⟨hm, by simp [hmi]⟩
    rw [hf] at hmem
    cases hmem
  | cons m rest =>
    cases rest with
    | nil => exact ⟨_, rfl⟩
    | cons m2 r2 =>
      exact (filter_key_no_two (fun a ha => by simpa using ha) hmcq hf).elim

theorem mcqs_succeed_without_micro_unit_witness :
    WmcqStore.micro_units = [] ∧
      ∃ r, mcqs_by_micro_unit WmcqStore "000000000000000000000007" = Except.ok r :=
  ⟨rfl, mcqs_succeed_without_micro_unit WmcqStore "000000000000000000000007" 7
    (by decide) (by decide) (by decide)⟩

theorem finalization_gate_asymmetry_witness :
    (micro_units_by_subtopic WfixStore "History" "Medieval India").2 =
      Except.error Err.doesNotExist :=
  (finalization_gate_asymmetry WfixStore "History" "Medieval India").1 (by decide)

theorem micro_units_sorted_and_has_notes_witness :
    List.Pairwise (fun a b : UnitRow => a.order ≤ b.order)
      [{ id := 10, name := "Guptas", order := 1, has_notes := true },
       { id := 11, name := "Mauryas", order := 2, has_notes := false }] :=
  ((micro_units_sorted_and_has_notes WfixStore "History" "Ancient India").1
    [{ id := 10, name := "Guptas", order := 1, has_notes := true },
     { id := 11, name := "Mauryas", order := 2, has_notes := false }] (by decide)).1
